import Mathlib

/-!
Verification of the OpenDxBench evaluation pipeline (src/eval) against its
specification.  The Python sources are shallowly embedded: JSONL files become
Lists of records, dictionaries become structures, and the fallible network
calls of the ICD client become explicit environments returning Except values.
-/

namespace OpenDxBench

/-- A benchmark work item, one line of the input JSONL: a pmid key plus an
opaque payload (patient_info is never inspected by the pipeline logic we
verify, so it is abstracted to a Nat). -/
structure BenchItem where
  pmid : Nat
  payload : Nat
deriving DecidableEq, Repr

/-- One line of the prediction output store written by run.py:
a record with fields pmid and pred_diagnoses. -/
structure PredRecord where
  pmid : Nat
  pred_diagnoses : List String
deriving DecidableEq, Repr

/-- The key ordering used by the sort in run.py get_todo_data
(todo_data.sort with key lambda x: x with bracket pmid). -/
def pmidLe (a b : BenchItem) : Prop := a.pmid ≤ b.pmid

instance : DecidableRel pmidLe := fun a b => Nat.decLe a.pmid b.pmid

instance : IsTotal BenchItem pmidLe := ⟨fun a b => Nat.le_total a.pmid b.pmid⟩

instance : IsTrans BenchItem pmidLe := ⟨fun _ _ _ => Nat.le_trans⟩

/-- run.py, get_todo_data: read source and sink, keep the source items whose
pmid is not among the sink pmids, then sort the survivors by pmid.
Python list.sort is stable; insertion sort is the stable sort used here. -/
def get_todo_data (data : List BenchItem) (parsed_data : List PredRecord) :
    List BenchItem :=
  let parsed_pmid := parsed_data.map PredRecord.pmid
  let todo_data := data.filter (fun item => !(parsed_pmid.contains item.pmid))
  List.insertionSort pmidLe todo_data

/-- standardized_pred.py, get_todo_data: same filter as the run.py version but
with NO final sort; survivors keep source order.  The sink of this stage is
keyed by pmid as well, so the sink is abstracted to its pmid list. -/
def get_todo_data_std (data : List BenchItem) (parsed_pmid : List Nat) :
    List BenchItem :=
  data.filter (fun item => !(parsed_pmid.contains item.pmid))

/-- Two permuted lists that are both sorted by pmid and have no duplicate
pmids are equal. -/
theorem sorted_nodup_pmid_unique :
    ∀ l1 l2 : List BenchItem, l1.Perm l2 → List.Pairwise pmidLe l1 →
      List.Pairwise pmidLe l2 → (l1.map BenchItem.pmid).Nodup → l1 = l2 := by
  intro l1
  induction l1 with
  | nil =>
    intro l2 hp _ _ _
    exact (hp.symm.eq_nil).symm
  | cons a t ih =>
    intro l2 hp hs1 hs2 hnd
    cases l2 with
    | nil => exact absurd hp.eq_nil (by simp)
    | cons b t2 =>
      by_cases hab : a = b
      · subst hab
        have ht : t.Perm t2 := hp.cons_inv
        have := ih t2 ht (List.Pairwise.sublist (List.sublist_cons_self a t) hs1)
          (List.Pairwise.sublist (List.sublist_cons_self a t2) hs2)
          (by simpa using (List.nodup_cons.mp (by simpa using hnd)).2)
        rw [this]
      · exfalso
        have hain : a ∈ t2 := by
          have : a ∈ b :: t2 := hp.subset (List.mem_cons_self a t)
          rcases List.mem_cons.mp this with h | h
          · exact absurd h hab
          · exact h
        have hbin : b ∈ t := by
          have : b ∈ a :: t := hp.symm.subset (List.mem_cons_self b t2)
          rcases List.mem_cons.mp this with h | h
          · exact absurd h.symm hab
          · exact h
        have h1 : a.pmid ≤ b.pmid := List.rel_of_pairwise_cons hs1 hbin
        have h2 : b.pmid ≤ a.pmid := List.rel_of_pairwise_cons hs2 hain
        have heq : a.pmid = b.pmid := Nat.le_antisymm h1 h2
        have : a.pmid ∉ t.map BenchItem.pmid :=
          (List.nodup_cons.mp (by simpa using hnd)).1
        exact this (heq ▸ List.mem_map_of_mem BenchItem.pmid hbin)

/-- Claim C1 counterexample: as stated over both cited implementations and
all source lists, the claim fails.  (i) the standardized_pred.py variant of
get_todo_data does not sort: on source pmids [2, 1] with an empty sink it
returns [2, 1], which is not pmid-sorted; (ii) the run.py variant is not
independent of source order when two source items share a pmid: reversing
such a source reverses the (stably sorted) output. -/
theorem C1_get_todo_data_counterexample :
    ((get_todo_data_std [⟨2, 0⟩, ⟨1, 0⟩] []).map BenchItem.pmid = [2, 1] ∧
      ¬ List.Pairwise (fun x y => x ≤ y) ([2, 1] : List Nat)) ∧
    (List.Perm [(⟨1, 5⟩ : BenchItem), ⟨1, 7⟩] [⟨1, 7⟩, ⟨1, 5⟩] ∧
      get_todo_data [⟨1, 5⟩, ⟨1, 7⟩] [] ≠ get_todo_data [⟨1, 7⟩, ⟨1, 5⟩] []) := by
  refine ⟨⟨by decide, by decide⟩,
    ⟨List.Perm.swap (⟨1, 7⟩ : BenchItem) ⟨1, 5⟩ [], ?_⟩⟩
  decide

/-- Claim C1 (amended): the run.py get_todo_data returns exactly the source
items whose pmid is not among the sink pmids, in pmid-sorted order, and for
source lists with pairwise-distinct pmids the result is independent of the
source order; the standardized_pred.py variant performs the same filter but
keeps the source order (it does not sort). -/
theorem C1_get_todo_data_spec (src : List BenchItem) (sink : List PredRecord) :
    (get_todo_data src sink).Perm
      (src.filter (fun i => !((sink.map PredRecord.pmid).contains i.pmid))) ∧
    List.Pairwise pmidLe (get_todo_data src sink) ∧
    (∀ src' : List BenchItem, src.Perm src' → (src.map BenchItem.pmid).Nodup →
      get_todo_data src sink = get_todo_data src' sink) ∧
    (∀ ids : List Nat,
      get_todo_data_std src ids = src.filter (fun i => !(ids.contains i.pmid))) := by
  refine ⟨List.perm_insertionSort pmidLe _, List.sorted_insertionSort pmidLe _,
    ?_, fun ids => rfl⟩
  intro src' hperm hnd
  have hperm2 : (get_todo_data src sink).Perm (get_todo_data src' sink) := by
    refine ((List.perm_insertionSort pmidLe _).trans ?_).trans
      (List.perm_insertionSort pmidLe _).symm
    exact hperm.filter _
  have hsub : ((src.filter
      (fun i => !((sink.map PredRecord.pmid).contains i.pmid))).map
        BenchItem.pmid).Sublist (src.map BenchItem.pmid) :=
    (List.filter_sublist src).map BenchItem.pmid
  have hnd1 : ((get_todo_data src sink).map BenchItem.pmid).Nodup := by
    have := ((List.perm_insertionSort pmidLe
      (src.filter (fun i => !((sink.map PredRecord.pmid).contains i.pmid)))).map
        BenchItem.pmid).nodup_iff
    exact this.mpr (hsub.nodup hnd)
  exact sorted_nodup_pmid_unique _ _ hperm2 (List.sorted_insertionSort pmidLe _)
    (List.sorted_insertionSort pmidLe _) hnd1

/-- Claim C1 witness: the amended theorem applied at a concrete source and
sink, with its permutation and distinctness hypotheses discharged. -/
theorem C1_get_todo_data_spec_witness :
    get_todo_data [⟨3, 0⟩, ⟨1, 1⟩, ⟨2, 2⟩] [⟨2, []⟩] =
        get_todo_data [⟨1, 1⟩, ⟨3, 0⟩, ⟨2, 2⟩] [⟨2, []⟩] ∧
      List.Pairwise pmidLe (get_todo_data [⟨3, 0⟩, ⟨1, 1⟩, ⟨2, 2⟩] [⟨2, []⟩]) := by
  have h := C1_get_todo_data_spec [⟨3, 0⟩, ⟨1, 1⟩, ⟨2, 2⟩] [⟨2, []⟩]
  exact ⟨h.2.2.1 [⟨1, 1⟩, ⟨3, 0⟩, ⟨2, 2⟩]
    (List.Perm.swap (⟨1, 1⟩ : BenchItem) ⟨3, 0⟩ [⟨2, 2⟩]) (by decide), h.2.1⟩

/-! ## main_eval passes and backfill (run.py) -/

/-- First-occurrence deduplication.  Models the value of
list(set(input_pmids) - set(output_pmids)) in make_up_illegal_output up to
element order: a Python set holds each value once; its iteration order is
unspecified, so we fix the first-occurrence order of the source list. -/
def dedupFirstAux {α : Type} [DecidableEq α] : List α → List α → List α
  | _, [] => []
  | seen, x :: xs =>
    if x ∈ seen then dedupFirstAux seen xs else x :: dedupFirstAux (x :: seen) xs

def dedupFirst {α : Type} [DecidableEq α] (l : List α) : List α :=
  dedupFirstAux [] l

/-- The exception the output extractor can raise: referencing output_part
when it was never assigned. -/
inductive PyRaise where
  | unboundLocal
deriving DecidableEq, Repr

/-- The body of the per-pass loop in run.py main_eval: for each todo item
ask the model and parse its response.  The oracle stands for
extract_diagnosis_list_from_output applied to the model response, so it has
the extractor's three outcomes: a parsed list (appended), None (logged and
skipped), or a raised exception.  main_eval wraps the loop in no handler,
so a raise aborts the loop; the records appended before it are already on
disk and are kept with the error. -/
def processTodo (oracle : BenchItem → Except PyRaise (Option (List String))) :
    List BenchItem → List PredRecord →
      Except (PyRaise × List PredRecord) (List PredRecord)
  | [], store => .ok store
  | d :: ds, store =>
    match oracle d with
    | .error e => .error (e, store)
    | .ok (some l) => processTodo oracle ds (store ++ [⟨d.pmid, l⟩])
    | .ok none => processTodo oracle ds store

/-- One retry pass of main_eval: diff against the output store, then process
the todo items in order, appending successes. -/
def runPass (oracle : BenchItem → Except PyRaise (Option (List String)))
    (input : List BenchItem) (store : List PredRecord) :
    Except (PyRaise × List PredRecord) (List PredRecord) :=
  processTodo oracle (get_todo_data input store) store

/-- The for i in range(max_retries) loop of main_eval; the oracle may answer
differently on different passes, and an uncaught raise in any pass ends the
loop. -/
def runPasses (oracle : Nat → BenchItem → Except PyRaise (Option (List String)))
    (input : List BenchItem) (k : Nat) (store : List PredRecord) :
    Except (PyRaise × List PredRecord) (List PredRecord) :=
  (List.range k).foldl
    (fun st i =>
      match st with
      | .error e => .error e
      | .ok s => runPass (oracle i) input s)
    (.ok store)

/-- run.py, make_up_illegal_output: append a record with an empty
pred_diagnoses list for every input pmid absent from the output store. -/
def missing_pmids (input : List BenchItem) (output : List PredRecord) :
    List Nat :=
  dedupFirst ((input.map BenchItem.pmid).filter
    (fun p => !((output.map PredRecord.pmid).contains p)))

def make_up_illegal_output (input : List BenchItem) (output : List PredRecord) :
    List PredRecord :=
  output ++ (missing_pmids input output).map (fun pmid => ⟨pmid, []⟩)

/-- How a run of main_eval ends: normally, with the backfilled store, or
aborted by an uncaught exception, leaving the store as written so far with
no backfill. -/
inductive RunOutcome where
  | completed (store : List PredRecord)
  | aborted (err : PyRaise) (store : List PredRecord)
deriving DecidableEq, Repr

/-- run.py, main_eval on a fresh output file: max_retries passes followed by
the backfill; an exception raised inside a pass propagates out of main_eval
before make_up_illegal_output runs. -/
def main_eval (oracle : Nat → BenchItem → Except PyRaise (Option (List String)))
    (input : List BenchItem) (max_retries : Nat) : RunOutcome :=
  match runPasses oracle input max_retries [] with
  | .error (e, store) => .aborted e store
  | .ok store => .completed (make_up_illegal_output input store)

theorem dedupFirstAux_cons_mem {α : Type} [DecidableEq α] {seen : List α}
    {y : α} (ys : List α)
    (h : y ∈ seen) : dedupFirstAux seen (y :: ys) = dedupFirstAux seen ys := by
  simp [dedupFirstAux, h]

theorem dedupFirstAux_cons_notMem {α : Type} [DecidableEq α] {seen : List α}
    {y : α} (ys : List α)
    (h : y ∉ seen) :
    dedupFirstAux seen (y :: ys) = y :: dedupFirstAux (y :: seen) ys := by
  simp [dedupFirstAux, h]

theorem mem_dedupFirstAux {α : Type} [DecidableEq α] {x : α} :
    ∀ (l seen : List α), x ∈ dedupFirstAux seen l ↔ x ∈ l ∧ x ∉ seen := by
  intro l
  induction l with
  | nil => intro seen; simp [dedupFirstAux]
  | cons y ys ih =>
    intro seen
    by_cases hy : y ∈ seen
    · rw [dedupFirstAux_cons_mem ys hy, ih]
      constructor
      · rintro ⟨h1, h2⟩
        exact ⟨List.mem_cons_of_mem _ h1, h2⟩
      · rintro ⟨h1, h2⟩
        rcases List.mem_cons.mp h1 with rfl | h1
        · exact absurd hy h2
        · exact ⟨h1, h2⟩
    · rw [dedupFirstAux_cons_notMem ys hy]
      constructor
      · intro h
        rcases List.mem_cons.mp h with rfl | h
        · exact ⟨List.mem_cons_self _ _, hy⟩
        · have h2 := (ih (y :: seen)).mp h
          exact ⟨List.mem_cons_of_mem _ h2.1,
            fun hc => h2.2 (List.mem_cons_of_mem _ hc)⟩
      · rintro ⟨h1, h2⟩
        by_cases hxy : x = y
        · exact hxy ▸ List.mem_cons_self _ _
        · rcases List.mem_cons.mp h1 with rfl | h1
          · exact absurd rfl hxy
          · refine List.mem_cons_of_mem _ ((ih (y :: seen)).mpr ⟨h1, ?_⟩)
            intro hc
            rcases List.mem_cons.mp hc with h | h
            · exact hxy h
            · exact h2 h

theorem mem_dedupFirst {α : Type} [DecidableEq α] {x : α} {l : List α} :
    x ∈ dedupFirst l ↔ x ∈ l := by
  simp [dedupFirst, mem_dedupFirstAux]

theorem nodup_dedupFirstAux {α : Type} [DecidableEq α] :
    ∀ (l seen : List α), (dedupFirstAux seen l).Nodup := by
  intro l
  induction l with
  | nil => intro seen; simp [dedupFirstAux]
  | cons y ys ih =>
    intro seen
    by_cases hy : y ∈ seen
    · rw [dedupFirstAux_cons_mem ys hy]
      exact ih seen
    · rw [dedupFirstAux_cons_notMem ys hy]
      refine List.nodup_cons.mpr ⟨?_, ih (y :: seen)⟩
      intro hc
      exact ((mem_dedupFirstAux ys (y :: seen)).mp hc).2 (List.mem_cons_self y seen)

theorem nodup_dedupFirst {α : Type} [DecidableEq α] (l : List α) :
    (dedupFirst l).Nodup :=
  nodup_dedupFirstAux l []

theorem map_pmid_dummy :
    ∀ l : List Nat,
      (l.map (fun pmid => (⟨pmid, []⟩ : PredRecord))).map PredRecord.pmid = l := by
  intro l
  induction l with
  | nil => rfl
  | cons x xs ih => simp [ih]

/-- The records appended by one pass when no item raises, as a filterMap
over the todo list. -/
def newRecords (oracle : BenchItem → Except PyRaise (Option (List String)))
    (todo : List BenchItem) : List PredRecord :=
  todo.filterMap (fun d =>
    match oracle d with
    | .ok (some l) => some ⟨d.pmid, l⟩
    | _ => none)

theorem newRecords_cons_none
    {oracle : BenchItem → Except PyRaise (Option (List String))}
    {d : BenchItem} (ds : List BenchItem) (h : oracle d = .ok none) :
    newRecords oracle (d :: ds) = newRecords oracle ds := by
  simp [newRecords, h]

theorem newRecords_cons_some
    {oracle : BenchItem → Except PyRaise (Option (List String))}
    {d : BenchItem} {l : List String} (ds : List BenchItem)
    (h : oracle d = .ok (some l)) :
    newRecords oracle (d :: ds) = ⟨d.pmid, l⟩ :: newRecords oracle ds := by
  simp [newRecords, h]

theorem newRecords_cons_error
    {oracle : BenchItem → Except PyRaise (Option (List String))}
    {d : BenchItem} {e : PyRaise} (ds : List BenchItem)
    (h : oracle d = .error e) :
    newRecords oracle (d :: ds) = newRecords oracle ds := by
  simp [newRecords, h]

/-- On a todo list none of whose items raises, the pass runs to completion
and the store grows by exactly the parsed records, in todo order. -/
theorem processTodo_ok
    (oracle : BenchItem → Except PyRaise (Option (List String))) :
    ∀ (todo : List BenchItem) (store : List PredRecord),
      (∀ d ∈ todo, ∀ e, oracle d ≠ .error e) →
      processTodo oracle todo store = .ok (store ++ newRecords oracle todo) := by
  intro todo
  induction todo with
  | nil => intro store _; simp [processTodo, newRecords]
  | cons d ds ih =>
    intro store hok
    cases h : oracle d with
    | error e => exact absurd h (hok d (List.mem_cons_self d ds) e)
    | ok r =>
      cases r with
      | none =>
        rw [processTodo, h]
        show processTodo oracle ds store = _
        rw [ih store (fun d2 hd2 => hok d2 (List.mem_cons_of_mem d hd2)),
          newRecords_cons_none ds h]
      | some l =>
        rw [processTodo, h]
        show processTodo oracle ds (store ++ [(⟨d.pmid, l⟩ : PredRecord)]) = _
        rw [ih (store ++ [(⟨d.pmid, l⟩ : PredRecord)])
          (fun d2 hd2 => hok d2 (List.mem_cons_of_mem d hd2)),
          newRecords_cons_some ds h]
        simp

theorem newRecords_pmids_sublist
    (oracle : BenchItem → Except PyRaise (Option (List String))) :
    ∀ todo : List BenchItem,
      ((newRecords oracle todo).map PredRecord.pmid).Sublist
        (todo.map BenchItem.pmid) := by
  intro todo
  induction todo with
  | nil => simp [newRecords]
  | cons d ds ih =>
    cases h : oracle d with
    | error e =>
      rw [newRecords_cons_error ds h, List.map_cons]
      exact ih.cons _
    | ok r =>
      cases r with
      | none =>
        rw [newRecords_cons_none ds h, List.map_cons]
        exact ih.cons _
      | some l =>
        rw [newRecords_cons_some ds h, List.map_cons, List.map_cons]
        exact ih.cons₂ _

theorem mem_newRecords_pmid
    {oracle : BenchItem → Except PyRaise (Option (List String))} {p : Nat} :
    ∀ {todo : List BenchItem},
      p ∈ (newRecords oracle todo).map PredRecord.pmid →
        ∃ d ∈ todo, d.pmid = p ∧ ∃ l, oracle d = .ok (some l) := by
  intro todo
  induction todo with
  | nil => simp [newRecords]
  | cons d ds ih =>
    intro hp
    cases h : oracle d with
    | error e =>
      rw [newRecords_cons_error ds h] at hp
      obtain ⟨x, hx, h1, h2⟩ := ih hp
      exact ⟨x, List.mem_cons_of_mem _ hx, h1, h2⟩
    | ok r =>
      cases r with
      | none =>
        rw [newRecords_cons_none ds h] at hp
        obtain ⟨x, hx, h1, h2⟩ := ih hp
        exact ⟨x, List.mem_cons_of_mem _ hx, h1, h2⟩
      | some l =>
        rw [newRecords_cons_some ds h, List.map_cons] at hp
        rcases List.mem_cons.mp hp with hp | hp
        · exact ⟨d, List.mem_cons_self d ds, hp.symm, l, h⟩
        · obtain ⟨x, hx, h1, h2⟩ := ih hp
          exact ⟨x, List.mem_cons_of_mem _ hx, h1, h2⟩

theorem mem_todo {input : List BenchItem} {store : List PredRecord}
    {d : BenchItem} (hd : d ∈ get_todo_data input store) :
    d ∈ input ∧ d.pmid ∉ store.map PredRecord.pmid := by
  have hmem : d ∈ input.filter
      (fun i => !((store.map PredRecord.pmid).contains i.pmid)) :=
    (List.perm_insertionSort pmidLe _).subset hd
  have := List.mem_filter.mp hmem
  refine ⟨this.1, ?_⟩
  simpa using this.2

theorem todo_pmids_nodup {input : List BenchItem} {store : List PredRecord}
    (hnd : (input.map BenchItem.pmid).Nodup) :
    ((get_todo_data input store).map BenchItem.pmid).Nodup := by
  have hsub : ((input.filter
      (fun i => !((store.map PredRecord.pmid).contains i.pmid))).map
        BenchItem.pmid).Sublist (input.map BenchItem.pmid) :=
    (List.filter_sublist input).map BenchItem.pmid
  exact (((List.perm_insertionSort pmidLe _).map BenchItem.pmid).nodup_iff).mpr
    (hsub.nodup hnd)

/-- Invariant carried through the retry passes: the store has no duplicate
pmids and only pmids drawn from the input. -/
def StoreInv (input : List BenchItem) (store : List PredRecord) : Prop :=
  (store.map PredRecord.pmid).Nodup ∧
    ∀ p ∈ store.map PredRecord.pmid, p ∈ input.map BenchItem.pmid

theorem storeAppend_inv
    {oracle : BenchItem → Except PyRaise (Option (List String))}
    {input : List BenchItem} {store : List PredRecord}
    (hnd : (input.map BenchItem.pmid).Nodup) (h : StoreInv input store) :
    StoreInv input (store ++ newRecords oracle (get_todo_data input store)) := by
  have hsub := newRecords_pmids_sublist oracle (get_todo_data input store)
  refine ⟨?_, ?_⟩
  · rw [List.map_append, List.nodup_append]
    refine ⟨h.1, hsub.nodup (todo_pmids_nodup hnd), ?_⟩
    intro p hp hq
    obtain ⟨d, hd, hdp, -⟩ := mem_newRecords_pmid hq
    exact (mem_todo hd).2 (hdp ▸ hp)
  · intro p hp
    rw [List.map_append, List.mem_append] at hp
    rcases hp with hp | hp
    · exact h.2 p hp
    · obtain ⟨d, hd, hdp, -⟩ := mem_newRecords_pmid hp
      exact hdp ▸ List.mem_map_of_mem BenchItem.pmid (mem_todo hd).1

theorem storeAppend_absent
    {oracle : BenchItem → Except PyRaise (Option (List String))}
    {input : List BenchItem} {store : List PredRecord} {p : Nat}
    (hor : ∀ d ∈ input, d.pmid = p → oracle d = .ok none)
    (hp : p ∉ store.map PredRecord.pmid) :
    p ∉ (store ++ newRecords oracle (get_todo_data input store)).map
      PredRecord.pmid := by
  rw [List.map_append]
  intro hc
  rcases List.mem_append.mp hc with hc | hc
  · exact hp hc
  · obtain ⟨d, hd, hdp, l, hl⟩ := mem_newRecords_pmid hc
    have h2 := hor d (mem_todo hd).1 hdp
    exact Option.noConfusion (Except.ok.inj (h2.symm.trans hl))

theorem runPasses_succ
    (oracle : Nat → BenchItem → Except PyRaise (Option (List String)))
    (input : List BenchItem) (k : Nat) (store : List PredRecord) :
    runPasses oracle input (k + 1) store =
      match runPasses oracle input k store with
      | .error e => .error e
      | .ok s => runPass (oracle k) input s := by
  simp [runPasses, List.range_succ]

/-- When no oracle call raises, every pass completes and the store built by
the k passes has no duplicate pmids, draws its pmids from the input, and
omits every pmid whose item the oracle answered None on all k passes. -/
theorem runPasses_ok_inv
    {oracle : Nat → BenchItem → Except PyRaise (Option (List String))}
    {input : List BenchItem} (hnd : (input.map BenchItem.pmid).Nodup)
    (hok : ∀ i d e, oracle i d ≠ .error e) :
    ∀ k, ∃ store, runPasses oracle input k [] = .ok store ∧
      StoreInv input store ∧
      ∀ p, (∀ i, i < k → ∀ d ∈ input, d.pmid = p → oracle i d = .ok none) →
        p ∉ store.map PredRecord.pmid := by
  intro k
  induction k with
  | zero =>
    refine ⟨[], rfl, ⟨by simp, by simp⟩, ?_⟩
    intro p _
    simp
  | succ n ih =>
    obtain ⟨store, hrun, hinv, habs⟩ := ih
    refine ⟨store ++ newRecords (oracle n) (get_todo_data input store),
      ?_, storeAppend_inv hnd hinv, ?_⟩
    · rw [runPasses_succ, hrun]
      show runPass (oracle n) input store = _
      rw [runPass, processTodo_ok (oracle n) _ store (fun d _ e => hok n d e)]
    · intro p hp
      exact storeAppend_absent (hp n (Nat.lt_succ_self n))
        (habs p (fun i hi => hp i (Nat.lt_succ_of_lt hi)))

/-! ## ICD-11 API client (icd_api.py)

The network is abstracted as an environment of fallible endpoint responses.
Python exceptions are modelled by the exn constructor, nontermination of an
unbounded loop by hang; both carry no result.  The token cache is the global
_token_cache dict, threaded explicitly. -/

/-- A Python exception raised inside the client: an HTTP error from
raise_for_status or the transport, a JSON-shape error (bad body, missing
key), or the ValueError raised by flex_search_icd_11. -/
inductive ApiErr where
  | http (status : Nat)
  | jsonShape
  | valueError (msg : String)
deriving DecidableEq, Repr

/-- The global _token_cache dict of icd_api.py: an access_token that starts
as None and an expiry epoch (seconds, modelled as Int). -/
structure TokenCache where
  access_token : Option String
  expiry : Int
deriving DecidableEq, Repr

/-- The initial value of _token_cache. -/
def initTokenCache : TokenCache := ⟨none, 0⟩

/-- The JSON body of a successful token exchange; expires_in may be absent
(the code reads it with data.get, defaulting to 0). -/
structure TokenData where
  access_token : String
  expires_in : Option Int
deriving DecidableEq, Repr

/-- The JSON body of an autocode response, when it is a truthy dict; the
fields the client reads may each be absent (a missing key raises). -/
structure AutoResult where
  theCode : Option String
  matchingText : Option String
deriving DecidableEq, Repr

/-- One destinationEntities element of a flexible-search response.  Scores
are floats in the service; they are modelled as rationals, which preserves
the comparisons the selection loop performs. -/
structure FlexEntity where
  score : Rat
  label : String
deriving DecidableEq, Repr

/-- The JSON body of an entity fetched by get_info_by_url_code: the id
referenced by parent[0] and the title @value. -/
structure IcdEntity where
  parent : Nat
  title : String
deriving DecidableEq, Repr

/-- The resolved entry returned by try_icd_encoding on success. -/
structure IcdEntry where
  code : String
  title : String
  chapter : String
deriving DecidableEq, Repr

/-- The remote endpoints, plus the current clock reading.  Each endpoint
either returns a parsed JSON body or raises (transport error, non-2xx where
the code checks, or undecodable body). -/
structure IcdEnv where
  now : Int
  tokenExchange : Except ApiErr TokenData
  autocodeResp : String → Except ApiErr (Option AutoResult)
  flexResp : String → Except ApiErr (List FlexEntity)
  codeinfoResp : String → Except ApiErr Nat
  entityResp : Nat → Except ApiErr IcdEntity

/-- Outcome of running a fragment of the client: a value, a raised Python
exception, or divergence; ok and exn carry the token cache state at that
point (the cache is a module-level global and survives exceptions). -/
inductive PyRes (α : Type) where
  | ok (a : α) (c : TokenCache)
  | exn (e : ApiErr) (c : TokenCache)
  | hang
deriving DecidableEq, Repr

def PyRes.bind {α β : Type} : PyRes α → (α → TokenCache → PyRes β) → PyRes β
  | .ok a c, f => f a c
  | .exn e c, _ => .exn e c
  | .hang, _ => .hang

/-- Python truthiness of the cached token: None and the empty string are
falsy (the code tests not _token_cache with bracket access_token). -/
def tokenFalsy : Option String → Bool
  | none => true
  | some s => s == ""

/-- icd_api.py, _get_token, instrumented: result, updated cache, and the
number of exchange requests performed (0 or 1). -/
def getTokenAux (now : Int) (exchange : Except ApiErr TokenData)
    (cache : TokenCache) : Except ApiErr String × TokenCache × Nat :=
  if tokenFalsy cache.access_token ∨ cache.expiry ≤ now then
    match exchange with
    | .error e => (.error e, cache, 1)
    | .ok data =>
      (.ok data.access_token,
        ⟨some data.access_token, now + data.expires_in.getD 0 - 10⟩, 1)
  else (.ok (cache.access_token.getD ""), cache, 0)

/-- _get_token as used by the other client functions. -/
def getTokenPy (env : IcdEnv) (cache : TokenCache) : PyRes String :=
  match getTokenAux env.now env.tokenExchange cache with
  | (.ok t, c, _) => .ok t c
  | (.error e, c, _) => .exn e c

/-- name.replace with space mapped to percent-20, the URL encoding the
client applies before building each query. -/
def urlEncodeSpaces (s : String) : String :=
  String.mk ((s.toList.map
    (fun ch => if ch = ' ' then ['%', '2', '0'] else [ch])).flatten)

/-- icd_api.py, search_icd_11: fetch a token, query the autocode endpoint,
return its decoded JSON. -/
def search_icd_11 (env : IcdEnv) (name : String) (cache : TokenCache) :
    PyRes (Option AutoResult) :=
  (getTokenPy env cache).bind fun _t c1 =>
    match env.autocodeResp (urlEncodeSpaces name) with
    | .ok r => .ok r c1
    | .error e => .exn e c1

/-- The selection loop of flex_search_icd_11: running index, best position
and best score so far; the update fires on a strictly greater score and the
running best starts at 0. -/
def flexScan : List FlexEntity → Nat → Nat → Rat → Nat × Rat
  | [], _, maxPos, maxScore => (maxPos, maxScore)
  | e :: rest, idx, maxPos, maxScore =>
    if maxScore < e.score then flexScan rest (idx + 1) idx e.score
    else flexScan rest (idx + 1) maxPos maxScore

/-- icd_api.py, flex_search_icd_11: fetch a token, query the flexible
search endpoint, raise ValueError on an empty candidate list, otherwise
return the candidate at the selected position. -/
def flex_search_icd_11 (env : IcdEnv) (name : String) (cache : TokenCache) :
    PyRes FlexEntity :=
  (getTokenPy env cache).bind fun _t c1 =>
    match env.flexResp (urlEncodeSpaces name) with
    | .error e => .exn e c1
    | .ok entities =>
      if entities.length = 0 then .exn (.valueError "flex search failed") c1
      else
        match entities[(flexScan entities 0 0 0).1]? with
        | some res => .ok res c1
        | none => .exn .jsonShape c1

/-- icd_api.py, get_url_code: drop a cluster qualifier after an ampersand
before querying the codeinfo endpoint. -/
def stripClusterCode (icd_code : String) : String :=
  if icd_code.toList.contains '&' then (icd_code.splitOn "&").headD icd_code
  else icd_code

/-- The sentinel root id terminating the parent walk. -/
def rootEntityId : Nat := 455013390

/-- The while True loop of search_chapter_by_code, with fuel standing for
the number of iterations observed.  The source loop has NO hop bound, so
running out of fuel yields hang (the loop is still running), never a
result.  The Nat threaded through counts get_info_by_url_code fetches,
including the initial one. -/
def chapterLoop (env : IcdEnv) (cache : TokenCache) :
    Nat → IcdEntity → Nat → PyRes (String × Nat)
  | 0, _, _ => .hang
  | fuel + 1, cur, fetches =>
    if cur.parent = rootEntityId then .ok (cur.title, fetches) cache
    else
      match env.entityResp cur.parent with
      | .error e => .exn e cache
      | .ok next => chapterLoop env cache fuel next (fetches + 1)

/-- icd_api.py, search_chapter_by_code: token, code-to-entity-id lookup,
initial entity fetch, then the parent walk. -/
def search_chapter_by_code (env : IcdEnv) (fuel : Nat) (icd_code : String)
    (cache : TokenCache) : PyRes (String × Nat) :=
  (getTokenPy env cache).bind fun _t c1 =>
    match env.codeinfoResp (stripClusterCode icd_code) with
    | .error e => .exn e c1
    | .ok url_code =>
      match env.entityResp url_code with
      | .error e => .exn e c1
      | .ok cur => chapterLoop env c1 fuel cur 1

/-- The fallback branch of try_icd_encoding: flex search for a label, rerun
autocode on it, accept a truthy result (missing keys raise), otherwise fall
through to None. -/
def try_flex_branch (env : IcdEnv) (fuel : Nat) (term : String)
    (cache : TokenCache) : PyRes (Option IcdEntry) :=
  (flex_search_icd_11 env term cache).bind fun fe c1 =>
    (search_icd_11 env fe.label c1).bind fun flex_result c2 =>
      match flex_result with
      | none => .ok none c2
      | some r =>
        match r.theCode with
        | none => .exn .jsonShape c2
        | some code =>
          match r.matchingText with
          | none => .exn .jsonShape c2
          | some mt =>
            (search_chapter_by_code env fuel code c2).bind fun ch c3 =>
              .ok (some ⟨code, mt, ch.1⟩) c3

/-- The body of the try block of try_icd_encoding: autocode first; on a
truthy dict carrying theCode, build the entry (reading matchingText, then
the chapter); otherwise take the flexible-search fallback. -/
def try_body (env : IcdEnv) (fuel : Nat) (term : String)
    (cache : TokenCache) : PyRes (Option IcdEntry) :=
  (search_icd_11 env term cache).bind fun results c1 =>
    match results with
    | some r =>
      match r.theCode with
      | some code =>
        (match r.matchingText with
         | none => PyRes.exn .jsonShape c1
         | some mt =>
           (search_chapter_by_code env fuel code c1).bind fun ch c2 =>
             .ok (some ⟨code, mt, ch.1⟩) c2)
      | none => try_flex_branch env fuel term c1
    | none => try_flex_branch env fuel term c1

/-- icd_api.py, try_icd_encoding: the whole body sits in a try with a
blanket except Exception handler that logs and returns None. -/
def try_icd_encoding (env : IcdEnv) (fuel : Nat) (term : String)
    (cache : TokenCache) : PyRes (Option IcdEntry) :=
  match try_body env fuel term cache with
  | .ok r c => .ok r c
  | .exn _e c => .ok none c
  | .hang => .hang

/-- A synthetic parent chain of length k: entity j has title toString j and
parent j+1, except the last entity k-1 whose parent is the sentinel root. -/
def chainEnv (k : Nat) : IcdEnv where
  now := 0
  tokenExchange := .ok ⟨"tok", some 3600⟩
  autocodeResp := fun _ => .ok none
  flexResp := fun _ => .ok []
  codeinfoResp := fun _ => .ok 0
  entityResp := fun i =>
    .ok ⟨if i + 1 = k then rootEntityId else i + 1, toString i⟩

/-- A cyclic hierarchy: every entity reports parent 7, never the root. -/
def cycEnv : IcdEnv where
  now := 0
  tokenExchange := .ok ⟨"tok", some 3600⟩
  autocodeResp := fun _ => .ok none
  flexResp := fun _ => .ok []
  codeinfoResp := fun _ => .ok 7
  entityResp := fun _ => .ok ⟨7, "loop"⟩

theorem chainLoop_ok (k : Nat) (hk : k ≤ rootEntityId) (c : TokenCache) :
    ∀ fuel j, j < k → k - j ≤ fuel →
      chapterLoop (chainEnv k) c fuel
          ⟨if j + 1 = k then rootEntityId else j + 1, toString j⟩ (j + 1) =
        .ok (toString (k - 1), k) c := by
  intro fuel
  induction fuel with
  | zero => intro j hj hle; omega
  | succ n ih =>
    intro j hj hle
    by_cases hjk : j + 1 = k
    · rw [chapterLoop, if_pos (by simp [hjk])]
      subst hjk
      simp
    · have hne : (⟨if j + 1 = k then rootEntityId else j + 1, toString j⟩ :
          IcdEntity).parent ≠ rootEntityId := by
        simp only [if_neg hjk]
        omega
      rw [chapterLoop, if_neg hne]
      have hstep : (chainEnv k).entityResp
          ((⟨if j + 1 = k then rootEntityId else j + 1, toString j⟩ :
            IcdEntity).parent) =
          .ok ⟨if (j + 1) + 1 = k then rootEntityId else (j + 1) + 1,
            toString (j + 1)⟩ := by
        simp only [if_neg hjk, chainEnv]
      rw [hstep]
      exact ih (j + 1) (by omega) (by omega)

theorem cycLoop_hang (c : TokenCache) :
    ∀ fuel fetches, chapterLoop cycEnv c fuel ⟨7, "loop"⟩ fetches = .hang := by
  intro fuel
  induction fuel with
  | zero => intro fetches; rfl
  | succ n ih =>
    intro fetches
    rw [chapterLoop, if_neg (by decide)]
    exact ih (fetches + 1)

/-- Claim C4, evaluated against the code: the happy half of the claim holds
(a chain of length k resolves to the title of the last non-root entity in
exactly k entity fetches), but the walk has NO hop bound: on a cyclic
parent chain it diverges for every iteration budget instead of failing with
the ChapterLookupError the specification requires (no such error exists in
the code). -/
theorem getTokenPy_ok_of_exchange_ok (env : IcdEnv) (cache : TokenCache)
    (d : TokenData) (h : env.tokenExchange = .ok d) :
    ∃ t c1, getTokenPy env cache = .ok t c1 := by
  unfold getTokenPy getTokenAux
  by_cases hcond : tokenFalsy cache.access_token ∨ cache.expiry ≤ env.now
  · rw [if_pos hcond, h]
    exact ⟨_, _, rfl⟩
  · rw [if_neg hcond]
    exact ⟨_, _, rfl⟩

theorem C4_chapter_walk_unbounded :
    (∀ k, 0 < k → k ≤ rootEntityId → ∀ fuel, k ≤ fuel →
      search_chapter_by_code (chainEnv k) fuel "X" initTokenCache =
        .ok (toString (k - 1), k) ⟨some "tok", 3590⟩) ∧
    (∀ fuel cache, search_chapter_by_code cycEnv fuel "X" cache = .hang) := by
  constructor
  · intro k hk hkroot fuel hfuel
    have htok : getTokenPy (chainEnv k) initTokenCache =
        .ok "tok" ⟨some "tok", 3590⟩ := rfl
    rw [search_chapter_by_code, htok]
    show chapterLoop (chainEnv k) ⟨some "tok", 3590⟩ fuel
        ⟨if 0 + 1 = k then rootEntityId else 0 + 1, toString 0⟩ 1 =
      .ok (toString (k - 1), k) ⟨some "tok", 3590⟩
    exact chainLoop_ok k hkroot ⟨some "tok", 3590⟩ fuel 0 hk (by omega)
  · intro fuel cache
    obtain ⟨t, c1, htok⟩ :=
      getTokenPy_ok_of_exchange_ok cycEnv cache ⟨"tok", some 3600⟩ rfl
    rw [search_chapter_by_code, htok]
    show chapterLoop cycEnv c1 fuel ⟨7, "loop"⟩ 1 = .hang
    exact cycLoop_hang c1 fuel 1

/-- Claim C4 witness: a chain of length 3 resolves to the title of entity 2
in exactly 3 fetches, and the cyclic store diverges at iteration budget 9. -/
theorem C4_chapter_walk_unbounded_witness :
    search_chapter_by_code (chainEnv 3) 5 "X" initTokenCache =
        .ok ("2", 3) ⟨some "tok", 3590⟩ ∧
      search_chapter_by_code cycEnv 9 "X" initTokenCache = .hang := by
  have h := C4_chapter_walk_unbounded
  exact ⟨h.1 3 (by decide) (by decide) 5 (by decide), h.2 9 initTokenCache⟩

/-- Claim C5: whatever the environment does, try_icd_encoding never ends in
a raised exception, and whenever its try body raises, the result is a None
entry with the cache state of the raise point. -/
theorem C5_try_icd_encoding_never_raises (env : IcdEnv) (fuel : Nat)
    (term : String) (cache : TokenCache) :
    (∀ e c, try_icd_encoding env fuel term cache ≠ .exn e c) ∧
    (∀ e c, try_body env fuel term cache = .exn e c →
      try_icd_encoding env fuel term cache = .ok none c) := by
  constructor
  · intro e c
    cases h : try_body env fuel term cache with
    | ok r c2 => simp [try_icd_encoding, h]
    | exn e2 c2 => simp [try_icd_encoding, h]
    | hang => simp [try_icd_encoding, h]
  · intro e c h
    simp [try_icd_encoding, h]

/-- An environment whose autocode endpoint raises an HTTP error. -/
def httpFailEnv : IcdEnv where
  now := 0
  tokenExchange := .ok ⟨"tok", some 3600⟩
  autocodeResp := fun _ => .error (.http 500)
  flexResp := fun _ => .ok []
  codeinfoResp := fun _ => .ok 0
  entityResp := fun _ => .ok ⟨rootEntityId, "Chapter"⟩

/-- Claim C5 witness: with an HTTP 500 from the autocode endpoint the try
body raises, and try_icd_encoding converts it into a None result. -/
theorem C5_try_icd_encoding_never_raises_witness :
    try_body httpFailEnv 5 "flu" initTokenCache =
        .exn (.http 500) ⟨some "tok", 3590⟩ ∧
      try_icd_encoding httpFailEnv 5 "flu" initTokenCache =
        .ok none ⟨some "tok", 3590⟩ := by
  refine ⟨by decide, ?_⟩
  exact (C5_try_icd_encoding_never_raises httpFailEnv 5 "flu" initTokenCache).2
    (.http 500) ⟨some "tok", 3590⟩ (by decide)

/-- Claim C6: a cached nonempty token that has not expired is returned with
no exchange; otherwise exactly one exchange runs and its token is cached
with expiry now plus expires_in minus 10; two calls within the window hence
return the same token with no second exchange, whatever the second
exchange endpoint would have answered. -/
theorem C6_get_token_cache (now : Int) (exchange : Except ApiErr TokenData)
    (cache : TokenCache) :
    (∀ t, cache.access_token = some t → t ≠ "" → now < cache.expiry →
      getTokenAux now exchange cache = (.ok t, cache, 0)) ∧
    (∀ d, (tokenFalsy cache.access_token = true ∨ cache.expiry ≤ now) →
      exchange = .ok d →
      getTokenAux now exchange cache =
        (.ok d.access_token,
          ⟨some d.access_token, now + d.expires_in.getD 0 - 10⟩, 1)) ∧
    (∀ d now' exch2, exchange = .ok d → d.access_token ≠ "" →
      (tokenFalsy cache.access_token = true ∨ cache.expiry ≤ now) →
      now' < now + d.expires_in.getD 0 - 10 →
      getTokenAux now' exch2 (getTokenAux now exchange cache).2.1 =
        (.ok d.access_token, (getTokenAux now exchange cache).2.1, 0)) := by
  refine ⟨?_, ?_, ?_⟩
  · intro t ht hne hlt
    have hcond : ¬ (tokenFalsy cache.access_token = true ∨
        cache.expiry ≤ now) := by
      rintro (h | h)
      · rw [ht] at h
        simp [tokenFalsy] at h
        exact hne h
      · omega
    unfold getTokenAux
    rw [if_neg hcond, ht]
    rfl
  · intro d hcond hex
    unfold getTokenAux
    rw [if_pos hcond, hex]
  · intro d now' exch2 hex hne hcond hlt
    have h1 : getTokenAux now exchange cache =
        (.ok d.access_token,
          ⟨some d.access_token, now + d.expires_in.getD 0 - 10⟩, 1) := by
      unfold getTokenAux
      rw [if_pos hcond, hex]
    rw [h1]
    have hcond2 : ¬ (tokenFalsy (some d.access_token) = true ∨
        (now + d.expires_in.getD 0 - 10 : Int) ≤ now') := by
      rintro (h | h)
      · simp [tokenFalsy] at h
        exact hne h
      · omega
    unfold getTokenAux
    rw [if_neg hcond2]
    rfl

/-- Claim C6 witness: the three conjuncts applied at concrete times,
caches and exchange bodies. -/
theorem C6_get_token_cache_witness :
    getTokenAux 50 (.ok ⟨"t2", some 100⟩) ⟨some "abc", 100⟩ =
        (.ok "abc", ⟨some "abc", 100⟩, 0) ∧
      getTokenAux 0 (.ok ⟨"t1", some 3600⟩) initTokenCache =
        (.ok "t1", ⟨some "t1", 3590⟩, 1) ∧
      getTokenAux 1000 (.error .jsonShape) ⟨some "t1", 3590⟩ =
        (.ok "t1", ⟨some "t1", 3590⟩, 0) := by
  refine ⟨(C6_get_token_cache 50 (.ok ⟨"t2", some 100⟩)
      ⟨some "abc", 100⟩).1 "abc" rfl (by decide) (by decide), ?_, ?_⟩
  · exact ((C6_get_token_cache 0 (.ok ⟨"t1", some 3600⟩) initTokenCache).2.1
      ⟨"t1", some 3600⟩ (Or.inl rfl) rfl).trans rfl
  · exact (C6_get_token_cache 0 (.ok ⟨"t1", some 3600⟩) initTokenCache).2.2
      ⟨"t1", some 3600⟩ 1000 (.error .jsonShape) rfl (by decide) (Or.inl rfl)
      (by decide)

theorem search_icd_11_eval (env : IcdEnv) (term : String) (cache : TokenCache)
    (t1 : String) (c1 : TokenCache) (r : Option AutoResult)
    (htok : getTokenPy env cache = .ok t1 c1)
    (hauto : env.autocodeResp (urlEncodeSpaces term) = .ok r) :
    search_icd_11 env term cache = .ok r c1 := by
  rw [search_icd_11, htok]
  show (match env.autocodeResp (urlEncodeSpaces term) with
    | .ok r2 => PyRes.ok r2 c1
    | .error e => PyRes.exn e c1) = PyRes.ok r c1
  rw [hauto]

theorem flex_search_eval (env : IcdEnv) (term : String) (cache : TokenCache)
    (t1 : String) (c1 : TokenCache) (es : List FlexEntity)
    (htok : getTokenPy env cache = .ok t1 c1)
    (hresp : env.flexResp (urlEncodeSpaces term) = .ok es) :
    flex_search_icd_11 env term cache =
      if es.length = 0 then .exn (.valueError "flex search failed") c1
      else
        match es[(flexScan es 0 0 0).1]? with
        | some res => .ok res c1
        | none => .exn .jsonShape c1 := by
  rw [flex_search_icd_11, htok]
  show (match env.flexResp (urlEncodeSpaces term) with
    | .error e => PyRes.exn e c1
    | .ok entities =>
      if entities.length = 0 then
        PyRes.exn (.valueError "flex search failed") c1
      else
        match entities[(flexScan entities 0 0 0).1]? with
        | some res => PyRes.ok res c1
        | none => PyRes.exn .jsonShape c1) = _
  rw [hresp]

/-- The selection loop invariant: flexScan either keeps the incoming best
pair, or picks an element of the remaining list that strictly beats the
incoming best and every element before it; in both cases the final best
score dominates every element seen. -/
theorem flexScan_spec :
    ∀ (es : List FlexEntity) (idx pos : Nat) (sc : Rat),
      (((flexScan es idx pos sc).1 = pos ∧ (flexScan es idx pos sc).2 = sc) ∨
        ∃ j, ∃ hj : j < es.length,
          (flexScan es idx pos sc).1 = idx + j ∧
          (flexScan es idx pos sc).2 = (es.get ⟨j, hj⟩).score ∧
          sc < (es.get ⟨j, hj⟩).score ∧
          ∀ m, ∀ hm : m < es.length, m < j →
            (es.get ⟨m, hm⟩).score < (flexScan es idx pos sc).2) ∧
      (∀ e ∈ es, e.score ≤ (flexScan es idx pos sc).2) ∧
      sc ≤ (flexScan es idx pos sc).2 := by
  intro es
  induction es with
  | nil =>
    intro idx pos sc
    exact ⟨Or.inl ⟨rfl, rfl⟩, by simp [flexScan], le_refl sc⟩
  | cons e rest ih =>
    intro idx pos sc
    by_cases h : sc < e.score
    · have heq : flexScan (e :: rest) idx pos sc =
          flexScan rest (idx + 1) idx e.score := by
        rw [flexScan, if_pos h]
      rw [heq]
      obtain ⟨hd, hall, hsc⟩ := ih (idx + 1) idx e.score
      refine ⟨?_, ?_, le_trans (le_of_lt h) hsc⟩
      · rcases hd with ⟨hp, hs⟩ | ⟨j', hj', hp, hs, hlt, hmlt⟩
        · refine Or.inr ⟨0, Nat.succ_pos rest.length, ?_, ?_, h, ?_⟩
          · rw [hp]
            omega
          · rw [hs]
            rfl
          · intro m hm hm0
            omega
        · refine Or.inr ⟨j' + 1, Nat.succ_lt_succ hj', ?_, hs, lt_trans h hlt, ?_⟩
          · rw [hp]
            omega
          · intro m hm hmlt1
            cases m with
            | zero =>
              rw [hs]
              exact hlt
            | succ n =>
              exact hmlt n (Nat.lt_of_succ_lt_succ hm)
                (Nat.lt_of_succ_lt_succ hmlt1)
      · intro x hx
        rcases List.mem_cons.mp hx with rfl | hx
        · exact hsc
        · exact hall x hx
    · have heq : flexScan (e :: rest) idx pos sc =
          flexScan rest (idx + 1) pos sc := by
        rw [flexScan, if_neg h]
      rw [heq]
      obtain ⟨hd, hall, hsc⟩ := ih (idx + 1) pos sc
      have hesc : e.score ≤ sc := not_lt.mp h
      refine ⟨?_, ?_, hsc⟩
      · rcases hd with ⟨hp, hs⟩ | ⟨j', hj', hp, hs, hlt, hmlt⟩
        · exact Or.inl ⟨hp, hs⟩
        · refine Or.inr ⟨j' + 1, Nat.succ_lt_succ hj', ?_, hs, hlt, ?_⟩
          · rw [hp]
            omega
          · intro m hm hmlt1
            cases m with
            | zero =>
              rw [hs]
              exact lt_of_le_of_lt hesc hlt
            | succ n =>
              exact hmlt n (Nat.lt_of_succ_lt_succ hm)
                (Nat.lt_of_succ_lt_succ hmlt1)
      · intro x hx
        rcases List.mem_cons.mp hx with rfl | hx
        · exact le_trans hesc hsc
        · exact hall x hx

/-- Claim C7: on a nonempty candidate list with the (service-guaranteed)
nonnegative scores, flex_search_icd_11 returns the candidate with the
strictly highest score, ties broken by first-seen position; on an empty
candidate list it raises the ValueError, and when the preceding autocode
step produced no result, try_icd_encoding surfaces that error as None. -/
theorem C7_flex_search (env : IcdEnv) (term : String) (cache : TokenCache)
    (t1 : String) (c1 : TokenCache) (es : List FlexEntity)
    (htok : getTokenPy env cache = .ok t1 c1)
    (hresp : env.flexResp (urlEncodeSpaces term) = .ok es) :
    (es ≠ [] → (∀ e ∈ es, 0 ≤ e.score) →
      ∃ i, ∃ hi : i < es.length,
        flex_search_icd_11 env term cache = .ok (es.get ⟨i, hi⟩) c1 ∧
        (∀ j, ∀ hj : j < es.length,
          (es.get ⟨j, hj⟩).score ≤ (es.get ⟨i, hi⟩).score) ∧
        ∀ j, ∀ hj : j < es.length, j < i →
          (es.get ⟨j, hj⟩).score < (es.get ⟨i, hi⟩).score) ∧
    (es = [] →
      flex_search_icd_11 env term cache =
          .exn (.valueError "flex search failed") c1 ∧
        ∀ fuel t2, env.autocodeResp (urlEncodeSpaces term) = .ok none →
          getTokenPy env c1 = .ok t2 c1 →
          try_icd_encoding env fuel term cache = .ok none c1) := by
  constructor
  · intro hne hpos
    have hlen : ¬ es.length = 0 := by
      intro h0
      exact hne (List.length_eq_zero.mp h0)
    obtain ⟨hd, hall, -⟩ := flexScan_spec es 0 0 0
    rcases hd with ⟨hp, hs⟩ | ⟨j, hj, hp, hs, hlt, hmlt⟩
    · have hi : 0 < es.length := Nat.pos_of_ne_zero hlen
      refine ⟨0, hi, ?_, ?_, ?_⟩
      · rw [flex_search_eval env term cache t1 c1 es htok hresp, if_neg hlen,
          hp, List.getElem?_eq_getElem hi]
        rfl
      · intro j2 hj2
        have h1 : (es.get ⟨j2, hj2⟩).score ≤ 0 := by
          rw [← hs]
          exact hall _ (es.get_mem _ _)
        have h2 : (0 : Rat) ≤ (es.get ⟨0, hi⟩).score := hpos _ (es.get_mem _ _)
        have h3 : (es.get ⟨0, hi⟩).score ≤ 0 := by
          rw [← hs]
          exact hall _ (es.get_mem _ _)
        calc (es.get ⟨j2, hj2⟩).score ≤ 0 := h1
          _ ≤ (es.get ⟨0, hi⟩).score := h2
      · intro j2 hj2 hj20
        omega
    · have hp0 : (flexScan es 0 0 0).1 = j := by
        rw [hp]
        omega
      refine ⟨j, hj, ?_, ?_, ?_⟩
      · rw [flex_search_eval env term cache t1 c1 es htok hresp, if_neg hlen,
          hp0, List.getElem?_eq_getElem hj]
        rfl
      · intro j2 hj2
        rw [← hs]
        exact hall _ (es.get_mem _ _)
      · intro j2 hj2 hj2j
        rw [← hs]
        exact hmlt j2 hj2 hj2j
  · intro hemp
    subst hemp
    have hflex : flex_search_icd_11 env term cache =
        .exn (.valueError "flex search failed") c1 := by
      rw [flex_search_eval env term cache t1 c1 [] htok hresp]
      rfl
    refine ⟨hflex, ?_⟩
    intro fuel t2 hauto htok2
    have hs1 : search_icd_11 env term cache = .ok none c1 :=
      search_icd_11_eval env term cache t1 c1 none htok hauto
    have hflex2 : flex_search_icd_11 env term c1 =
        .exn (.valueError "flex search failed") c1 := by
      rw [flex_search_eval env term c1 t2 c1 [] htok2 hresp]
      rfl
    have hfb : try_flex_branch env fuel term c1 =
        .exn (.valueError "flex search failed") c1 := by
      rw [try_flex_branch, hflex2]
      rfl
    have hbody : try_body env fuel term cache =
        .exn (.valueError "flex search failed") c1 := by
      rw [try_body, hs1]
      show try_flex_branch env fuel term c1 =
        .exn (.valueError "flex search failed") c1
      exact hfb
    simp [try_icd_encoding, hbody]

/-- A candidate list with a duplicated top score at positions 1 and 3. -/
def flexDemoList : List FlexEntity := [⟨1, "a"⟩, ⟨3, "b"⟩, ⟨2, "c"⟩, ⟨3, "d"⟩]

/-- An environment whose flexible search returns flexDemoList. -/
def flexDemoEnv : IcdEnv where
  now := 0
  tokenExchange := .ok ⟨"tok", some 3600⟩
  autocodeResp := fun _ => .ok none
  flexResp := fun _ => .ok flexDemoList
  codeinfoResp := fun _ => .ok 0
  entityResp := fun _ => .ok ⟨rootEntityId, "Chapter"⟩

/-- Claim C7 witness: the selection theorem applied to flexDemoList, and
the empty-list branch applied to cycEnv (whose flexible search is empty and
whose autocode is falsy). -/
theorem C7_flex_search_witness :
    (∃ i, ∃ hi : i < flexDemoList.length,
        flex_search_icd_11 flexDemoEnv "x" initTokenCache =
          .ok (flexDemoList.get ⟨i, hi⟩) ⟨some "tok", 3590⟩ ∧
        (∀ j, ∀ hj : j < flexDemoList.length,
          (flexDemoList.get ⟨j, hj⟩).score ≤ (flexDemoList.get ⟨i, hi⟩).score) ∧
        ∀ j, ∀ hj : j < flexDemoList.length, j < i →
          (flexDemoList.get ⟨j, hj⟩).score <
            (flexDemoList.get ⟨i, hi⟩).score) ∧
      flex_search_icd_11 cycEnv "x" initTokenCache =
        .exn (.valueError "flex search failed") ⟨some "tok", 3590⟩ ∧
      try_icd_encoding cycEnv 5 "x" initTokenCache =
        .ok none ⟨some "tok", 3590⟩ := by
  refine ⟨(C7_flex_search flexDemoEnv "x" initTokenCache "tok"
    ⟨some "tok", 3590⟩ flexDemoList rfl rfl).1 (by decide) (by decide),
    ?_, ?_⟩
  · exact ((C7_flex_search cycEnv "x" initTokenCache "tok" ⟨some "tok", 3590⟩
      [] rfl rfl).2 rfl).1
  · exact ((C7_flex_search cycEnv "x" initTokenCache "tok" ⟨some "tok", 3590⟩
      [] rfl rfl).2 rfl).2 5 "tok" rfl rfl

/-- An environment whose token endpoint answers with HTTP 500. -/
def authFailEnv : IcdEnv where
  now := 0
  tokenExchange := .error (.http 500)
  autocodeResp := fun _ => .ok none
  flexResp := fun _ => .ok []
  codeinfoResp := fun _ => .ok 0
  entityResp := fun _ => .ok ⟨rootEntityId, "Chapter"⟩

/-- Claim C9 counterexample: a credential exchange failure (HTTP 500 from
the token endpoint) raised inside _get_token IS contained at the per-item
boundary: try_icd_encoding converts it into a None result for the term
instead of letting it abort the run. -/
theorem C9_auth_failure_counterexample :
    getTokenPy authFailEnv initTokenCache =
        .exn (.http 500) initTokenCache ∧
      try_icd_encoding authFailEnv 5 "flu" initTokenCache =
        .ok none initTokenCache := by
  exact ⟨by decide, by decide⟩

/-- Claim C9 (amended): a credential exchange failure raises an HTTP error
out of _get_token, but every per-term resolution through try_icd_encoding
catches it with the blanket except handler and converts it to a None
result, continuing the batch; it does not abort the run. -/
theorem C9_auth_failure_contained (env : IcdEnv) (fuel : Nat) (term : String)
    (cache : TokenCache) (e : ApiErr)
    (hfail : env.tokenExchange = .error e)
    (hfresh : tokenFalsy cache.access_token = true ∨ cache.expiry ≤ env.now) :
    getTokenPy env cache = .exn e cache ∧
      try_icd_encoding env fuel term cache = .ok none cache := by
  have hx : getTokenAux env.now env.tokenExchange cache = (.error e, cache, 1) := by
    unfold getTokenAux
    rw [if_pos hfresh, hfail]
  have htok : getTokenPy env cache = .exn e cache := by
    unfold getTokenPy
    rw [hx]
  refine ⟨htok, ?_⟩
  have hs1 : search_icd_11 env term cache = .exn e cache := by
    rw [search_icd_11, htok]
    rfl
  have hbody : try_body env fuel term cache = .exn e cache := by
    rw [try_body, hs1]
    rfl
  simp [try_icd_encoding, hbody]

/-- Claim C9 witness: the containment theorem applied at the HTTP-500
environment with a fresh cache. -/
theorem C9_auth_failure_contained_witness :
    try_icd_encoding authFailEnv 7 "cough" initTokenCache =
      .ok none initTokenCache :=
  (C9_auth_failure_contained authFailEnv 7 "cough" initTokenCache (.http 500)
    rfl (Or.inl rfl)).2

/-! ## Model-output parsing (run.py, extract_diagnosis_list_from_output)

The regex- and parser-based extraction is embedded over List Char.  The
library calls json.loads / ast.literal_eval are modelled on the fragment
the pipeline exercises: list literals whose elements are quoted strings
(either quote style, no escape sequences, no trailing comma); a non-list
parse outcome behaves like a parse failure here, which coincides with the
control flow of the source for every input we evaluate. -/

/-- Python str.strip whitespace set, restricted to the ASCII characters
(space, tab, LF, CR, VT, FF). -/
def isPySpace (c : Char) : Bool :=
  c = ' ' || c = '\t' || c = '\n' || c = '\r' ||
    c = Char.ofNat 11 || c = Char.ofNat 12

/-- The single-quote character. -/
def squote : Char := Char.ofNat 39

def dropTrailing (p : Char → Bool) (cs : List Char) : List Char :=
  (cs.reverse.dropWhile p).reverse

/-- Python str.strip with a character predicate: drop from both ends. -/
def pyStripChars (p : Char → Bool) (cs : List Char) : List Char :=
  dropTrailing p (cs.dropWhile p)

/-- Parse one quoted string literal (either quote style, no escapes) at the
head of the input; return its contents and the remainder. -/
def parseStrLit : List Char → Option (String × List Char)
  | [] => none
  | q :: rest =>
    if q = '"' ∨ q = squote then
      let content := rest.takeWhile (fun c => c ≠ q)
      match rest.drop content.length with
      | c2 :: rest2 => if c2 = q then some (String.mk content, rest2) else none
      | [] => none
    else none

/-- Parse the comma-separated continuation of a list literal until the
closing bracket; only trailing whitespace may follow. -/
def parseListRest : Nat → List Char → List String → Option (List String)
  | 0, _, _ => none
  | fuel + 1, cs, acc =>
    match cs.dropWhile isPySpace with
    | ']' :: rest =>
      if (rest.dropWhile isPySpace).isEmpty then some acc else none
    | ',' :: rest =>
      match parseStrLit (rest.dropWhile isPySpace) with
      | some (s, rest2) => parseListRest fuel rest2 (acc ++ [s])
      | none => none
    | _ => none

/-- Parse the inside of a list literal, after the opening bracket. -/
def parseListAfterBracket (fuel : Nat) (cs : List Char) :
    Option (List String) :=
  match cs.dropWhile isPySpace with
  | ']' :: rest =>
    if (rest.dropWhile isPySpace).isEmpty then some [] else none
  | cs1 =>
    match parseStrLit cs1 with
    | some (s, rest) => parseListRest fuel rest [s]
    | none => none

/-- json.loads / ast.literal_eval of a list literal of strings: succeeds
exactly when the whole string is such a literal. -/
def parseListLiteral (s : String) : Option (List String) :=
  match s.toList.dropWhile isPySpace with
  | '[' :: rest => parseListAfterBracket (rest.length + 1) rest
  | _ => none

def markerChars : List Char := "### Output ###".toList

/-- The regex search for the marker followed by optional whitespace and a
lazily matched bracketed span: at each marker occurrence, the next
non-whitespace character must open a bracket and a closing bracket must
exist later, else the engine moves on to a later occurrence. -/
def bracketAfterMarker : List Char → Option (List Char)
  | [] => none
  | c :: rest =>
    if markerChars.isPrefixOf (c :: rest) then
      match ((c :: rest).drop markerChars.length).dropWhile isPySpace with
      | '[' :: tail =>
        if tail.contains ']' then
          some ('[' :: (tail.takeWhile (fun c2 => c2 ≠ ']') ++ [']']))
        else bracketAfterMarker rest
      | _ => bracketAfterMarker rest
    else bracketAfterMarker rest

/-- text.split(marker, 1): the part after the first marker occurrence, or
none when the marker is absent (parts shorter than 2). -/
def afterMarker : List Char → Option (List Char)
  | [] => none
  | c :: rest =>
    if markerChars.isPrefixOf (c :: rest) then
      some ((c :: rest).drop markerChars.length)
    else afterMarker rest

/-- re.findall of one-or-more non-quote characters between two quote
characters: non-overlapping matches, scanning left to right; an empty pair
of quotes is not a match and scanning resumes at the closing quote. -/
def findQuotedF (q : Char) : Nat → List Char → List String
  | 0, _ => []
  | _ + 1, [] => []
  | fuel + 1, c :: rest =>
    if c = q then
      let content := rest.takeWhile (fun c2 => c2 ≠ q)
      match rest.drop content.length with
      | [] => []
      | _ :: rest2 =>
        match content with
        | [] => findQuotedF q fuel rest
        | _ :: _ => String.mk content :: findQuotedF q fuel rest2
    else findQuotedF q fuel rest

def findQuoted (q : Char) (cs : List Char) : List String :=
  findQuotedF q (cs.length + 1) cs

/-- re.match of optional whitespace, digits, a dot, optional whitespace and
a nonempty remainder, then .strip() of the captured group.  A remainder
that is entirely whitespace still matches (the lazy backtracking leaves one
whitespace character for the group), stripping to the empty string. -/
def numberedItem (line : String) : Option String :=
  let l1 := line.toList.dropWhile isPySpace
  let digits := l1.takeWhile (fun c => c.isDigit)
  if digits.isEmpty then none
  else
    match l1.drop digits.length with
    | '.' :: r =>
      if r.isEmpty then none
      else
        let r2 := r.dropWhile isPySpace
        if r2.isEmpty then some ""
        else some (String.mk (dropTrailing isPySpace r2))
    | _ => none

/-- The numbered-list pass over output_part.splitlines() (LF newlines). -/
def numberedItems (cs : List Char) : List String :=
  ((String.mk cs).splitOn "\n").filterMap numberedItem

/-- The argument passed to the extractor: the model response, which is a
string on success and a non-string value (None from the request wrapper)
when the API call failed. -/
inductive PyText where
  | str (s : String)
  | nonStr (tag : Nat)
deriving DecidableEq, Repr

/-- run.py, extract_diagnosis_list_from_output.  Strategies in source
order: (0) parse the whole stripped text as a list literal; (1) parse the
bracketed span after the marker; (2) quoted substrings of output_part,
deduplicated keeping first occurrences; (3) numbered lines of output_part.
output_part is assigned only inside the branch where the bracket regex
matched; when that regex found nothing, step (3) reads the unassigned
variable and Python raises UnboundLocalError. -/
def extract_diagnosis_list_from_output (input : PyText) :
    Except PyRaise (Option (List String)) :=
  match input with
  | .nonStr _ => .ok none
  | .str s =>
    let text := String.mk
      (pyStripChars isPySpace (pyStripChars (fun c => c = '.') s.toList))
    match parseListLiteral text with
    | some lst => .ok (some lst)
    | none =>
      match bracketAfterMarker text.toList with
      | some snippet =>
        match parseListLiteral (String.mk snippet) with
        | some lst => .ok (some lst)
        | none =>
          match afterMarker text.toList with
          | none => .ok none
          | some output_part =>
            let dq := findQuoted '"' output_part
            let quoted := if dq.isEmpty then findQuoted squote output_part
              else dq
            if ¬ quoted.isEmpty then .ok (some (dedupFirst quoted))
            else
              let enum_items := numberedItems output_part
              if ¬ enum_items.isEmpty then .ok (some enum_items)
              else .ok none
      | none => .error .unboundLocal

/-- Claim C3, evaluated against the code: strategies (a) and (b) behave as
claimed, but the spec test vectors for strategies (c) and (d), and
marker-free malformed text, all raise UnboundLocalError instead of
returning the claimed result, because output_part is assigned only when
the bracket regex matched. -/
theorem C3_extract_strategies_broken :
    extract_diagnosis_list_from_output (.str "[\"A\", \"B\"]") =
        .ok (some ["A", "B"]) ∧
      extract_diagnosis_list_from_output
          (.str "### Output ###\n[\"A\", \"B\"]") = .ok (some ["A", "B"]) ∧
      extract_diagnosis_list_from_output (.str "### Output ###\n\"A\", \"B\"") =
        .error .unboundLocal ∧
      extract_diagnosis_list_from_output (.str "### Output ###\n1. A\n2. B") =
        .error .unboundLocal ∧
      extract_diagnosis_list_from_output (.str "no marker and no list") =
        .error .unboundLocal := by
  refine ⟨rfl, rfl, rfl, rfl, rfl⟩

/-- Claim C10: a non-string argument, such as the None the request wrapper
returns when the API call itself failed, makes the extractor return an
absent result immediately, raising nothing. -/
theorem C10_extract_non_string (tag : Nat) :
    extract_diagnosis_list_from_output (.nonStr tag) = .ok none := rfl

/-- Claim C2, evaluated against the code: the completeness guarantee fails
on a reachable run.  A model response that defeats every parsing strategy
without matching the bracket regex (here a numbered list, whose extraction
raises UnboundLocalError) aborts serial main_eval inside the first pass,
before make_up_illegal_output, leaving the store with no record for the
item.  When no response makes the extractor raise, the claimed guarantee
does hold: the run completes, the store pmids are a permutation of the
(distinct) input pmids, and every item whose responses never parsed is
backfilled with an empty pred_diagnoses list. -/
theorem C2_main_eval_completeness :
    main_eval
        (fun _ _ => extract_diagnosis_list_from_output
          (.str "### Output ###\n1. A\n2. B"))
        [⟨1, 0⟩] 3 = .aborted .unboundLocal [] ∧
      ∀ (oracle : Nat → BenchItem → Except PyRaise (Option (List String)))
        (input : List BenchItem) (k : Nat),
        (input.map BenchItem.pmid).Nodup →
        (∀ i d e, oracle i d ≠ .error e) →
        ∃ store, main_eval oracle input k = .completed store ∧
          (store.map PredRecord.pmid).Perm (input.map BenchItem.pmid) ∧
          ∀ item ∈ input, (∀ i < k, oracle i item = .ok none) →
            (⟨item.pmid, []⟩ : PredRecord) ∈ store := by
  constructor
  · rfl
  · intro oracle input k hnd hok
    obtain ⟨store, hrun, ⟨hstoreNd, hstoreSub⟩, habs⟩ := runPasses_ok_inv hnd hok k
    have hmissNotIn : ∀ p ∈ missing_pmids input store,
        p ∉ store.map PredRecord.pmid := by
      intro p hp
      have h2 := (List.mem_filter.mp (mem_dedupFirst.mp hp)).2
      intro hc
      rw [Bool.not_eq_eq_eq_not, Bool.not_true, List.contains_eq_any_beq] at h2
      have hany : (store.map PredRecord.pmid).any (p == ·) = true := by
        apply List.any_eq_true.mpr
        exact ⟨p, hc, by simp⟩
      rw [hany] at h2
      exact Bool.false_ne_true h2.symm
    have hmissSub : ∀ p ∈ missing_pmids input store,
        p ∈ input.map BenchItem.pmid := by
      intro p hp
      exact (List.mem_filter.mp (mem_dedupFirst.mp hp)).1
    have hfinal : (make_up_illegal_output input store).map PredRecord.pmid =
        store.map PredRecord.pmid ++ missing_pmids input store := by
      rw [make_up_illegal_output, List.map_append, map_pmid_dummy]
    refine ⟨make_up_illegal_output input store, ?_, ?_, ?_⟩
    · rw [main_eval, hrun]
    · rw [hfinal]
      have hndfinal : (store.map PredRecord.pmid ++
          missing_pmids input store).Nodup := by
        rw [List.nodup_append]
        exact ⟨hstoreNd, nodup_dedupFirst _, fun p hp hq => hmissNotIn p hq hp⟩
      refine (List.perm_ext_iff_of_nodup hndfinal hnd).mpr ?_
      intro p
      constructor
      · intro hp
        rcases List.mem_append.mp hp with hp | hp
        · exact hstoreSub p hp
        · exact hmissSub p hp
      · intro hp
        by_cases hin : p ∈ store.map PredRecord.pmid
        · exact List.mem_append.mpr (Or.inl hin)
        · refine List.mem_append.mpr (Or.inr (mem_dedupFirst.mpr ?_))
          refine List.mem_filter.mpr ⟨hp, ?_⟩
          simpa using hin
    · intro item hitem hor
      have hnotin : item.pmid ∉ store.map PredRecord.pmid := by
        refine habs item.pmid ?_
        intro i hi d hd hdp
        have hde : d = item := by
          have := List.inj_on_of_nodup_map hnd hd hitem
          exact this hdp
        exact hde ▸ hor i hi
      have hmiss : item.pmid ∈ missing_pmids input store := by
        refine mem_dedupFirst.mpr (List.mem_filter.mpr ?_)
        refine ⟨List.mem_map_of_mem BenchItem.pmid hitem, ?_⟩
        simpa using hnotin
      have hmem : (⟨item.pmid, []⟩ : PredRecord) ∈
          (missing_pmids input store).map
            (fun pmid => (⟨pmid, []⟩ : PredRecord)) :=
        List.mem_map_of_mem _ hmiss
      rw [make_up_illegal_output]
      exact List.mem_append.mpr (Or.inr hmem)

/-- Claim C2 witness: the no-raise half applied to a concrete two-item
input over one pass, with an oracle that parses a list for pmid 1 and
returns None for pmid 2. -/
theorem C2_main_eval_completeness_witness :
    ∃ store,
      main_eval
          (fun _ d => if d.pmid = 1 then Except.ok (some ["flu"])
            else Except.ok none)
          [⟨1, 0⟩, ⟨2, 0⟩] 1 = .completed store ∧
        (store.map PredRecord.pmid).Perm [1, 2] ∧
        (⟨2, []⟩ : PredRecord) ∈ store := by
  obtain ⟨store, h1, h2, h3⟩ := C2_main_eval_completeness.2
    (fun _ d => if d.pmid = 1 then Except.ok (some ["flu"])
      else Except.ok none)
    [⟨1, 0⟩, ⟨2, 0⟩] 1 (by decide)
    (by
      intro i d e
      by_cases hd : d.pmid = 1 <;> simp [hd])
  exact ⟨store, h1, h2, h3 ⟨2, 0⟩ (by decide) (fun _ _ => rfl)⟩

/-! ## Merge pass over the standardized-prediction store
(standardized_pred.py, correct_pred_icd_11_none)

The resolver is abstracted as a function from a term to an optional entry
(try_icd_encoding under a fixed environment; the merge logic never inspects
the token cache). -/

/-- One element of standardized_pred_diagnosis. -/
structure StdEntry where
  original_term : String
  code : Option String
  title : Option String
  chapter : Option String
deriving DecidableEq, Repr

/-- One line of the _icd output store.  The standardized field is optional
because the update path reads it with .get(key, default-empty). -/
structure IcdRecord where
  pmid : Nat
  pred_diagnoses : List String
  standardized_pred_diagnosis : Option (List StdEntry)
deriving DecidableEq, Repr

/-- term.strip with the asterisk character set. -/
def stripStars (term : String) : String :=
  String.mk (pyStripChars (fun c => c = '*') term.toList)

/-- Building one standardized entry for a new record: strip the term, try
the resolver, fill the three fields or leave them None. -/
def stdFromTerm (resolve : String → Option IcdEntry) (term : String) :
    StdEntry :=
  let t := stripStars term
  match resolve t with
  | some icd => ⟨t, some icd.code, some icd.title, some icd.chapter⟩
  | none => ⟨t, none, none, none⟩

/-- The record appended for a pred whose pmid is new to the store. -/
def newIcdRecord (resolve : String → Option IcdEntry) (pred : PredRecord) :
    IcdRecord :=
  ⟨pred.pmid, pred.pred_diagnoses,
    some (pred.pred_diagnoses.map (stdFromTerm resolve))⟩

/-- The in-place update of one existing entry: only entries whose code is
None are re-resolved, and only a successful resolution changes them. -/
def reresolveEntry (resolve : String → Option IcdEntry) (e : StdEntry) :
    StdEntry :=
  if e.code = none then
    match resolve (stripStars e.original_term) with
    | some icd => ⟨e.original_term, some icd.code, some icd.title,
        some icd.chapter⟩
    | none => e
  else e

/-- The in-place update of one existing record; a record without the
standardized field iterates over the default empty list, a no-op. -/
def reresolveRecord (resolve : String → Option IcdEntry) (r : IcdRecord) :
    IcdRecord :=
  match r.standardized_pred_diagnosis with
  | none => r
  | some entries =>
    ⟨r.pmid, r.pred_diagnoses, some (entries.map (reresolveEntry resolve))⟩

/-- The inner for-proc loop with its break: update the first record whose
pmid matches and leave the rest untouched. -/
def updateFirstIcd (resolve : String → Option IcdEntry) :
    List IcdRecord → Nat → List IcdRecord
  | [], _ => []
  | r :: rs, p =>
    if r.pmid = p then reresolveRecord resolve r :: rs
    else r :: updateFirstIcd resolve rs p

/-- One iteration of the main loop of correct_pred_icd_11_none over the
state processed_list and processed_pmids (the Python set is modelled as the
insertion-ordered list of its elements; only membership is consulted). -/
def correctStep (resolve : String → Option IcdEntry)
    (st : List IcdRecord × List Nat) (pred : PredRecord) :
    List IcdRecord × List Nat :=
  if st.2.contains pred.pmid then
    (updateFirstIcd resolve st.1 pred.pmid, st.2)
  else
    (st.1 ++ [newIcdRecord resolve pred], st.2 ++ [pred.pmid])

/-- standardized_pred.py, correct_pred_icd_11_none: read both files, walk
the pred list threading the store and the seen-pmid set, rewrite the whole
store. -/
def correct_pred_icd_11_none (resolve : String → Option IcdEntry)
    (pred_list : List PredRecord) (processed_list : List IcdRecord) :
    List IcdRecord :=
  (pred_list.foldl (correctStep resolve)
    (processed_list, processed_list.map IcdRecord.pmid)).1

theorem reresolveRecord_pmid (resolve : String → Option IcdEntry)
    (r : IcdRecord) : (reresolveRecord resolve r).pmid = r.pmid := by
  cases h : r.standardized_pred_diagnosis <;> simp [reresolveRecord, h]

theorem updateFirstIcd_map_pmid (resolve : String → Option IcdEntry) :
    ∀ (l : List IcdRecord) (p : Nat),
      (updateFirstIcd resolve l p).map IcdRecord.pmid =
        l.map IcdRecord.pmid := by
  intro l
  induction l with
  | nil => intro p; rfl
  | cons r rs ih =>
    intro p
    by_cases h : r.pmid = p
    · simp [updateFirstIcd, h, reresolveRecord_pmid]
    · simp [updateFirstIcd, h, ih p]

theorem correct_fold_spec (resolve : String → Option IcdEntry) :
    ∀ (pred_list : List PredRecord) (plist : List IcdRecord),
      (pred_list.map PredRecord.pmid).Nodup →
      (pred_list.foldl (correctStep resolve)
          (plist, plist.map IcdRecord.pmid)).1.map IcdRecord.pmid =
        plist.map IcdRecord.pmid ++
          (pred_list.filter
            (fun p => !((plist.map IcdRecord.pmid).contains p.pmid))).map
              PredRecord.pmid := by
  intro pred_list
  induction pred_list with
  | nil => intro plist _; simp
  | cons pr rest ih =>
    intro plist hnd
    have hndr : (rest.map PredRecord.pmid).Nodup :=
      (List.nodup_cons.mp (by simpa using hnd)).2
    have hprn : pr.pmid ∉ rest.map PredRecord.pmid :=
      (List.nodup_cons.mp (by simpa using hnd)).1
    by_cases hmem : pr.pmid ∈ plist.map IcdRecord.pmid
    · have hc : (plist.map IcdRecord.pmid).contains pr.pmid = true :=
        List.elem_iff.mpr hmem
      have hstep : correctStep resolve (plist, plist.map IcdRecord.pmid) pr =
          (updateFirstIcd resolve plist pr.pmid, plist.map IcdRecord.pmid) := by
        unfold correctStep
        rw [if_pos hc]
      rw [List.foldl_cons, hstep]
      have hupd : (updateFirstIcd resolve plist pr.pmid).map IcdRecord.pmid =
          plist.map IcdRecord.pmid := updateFirstIcd_map_pmid resolve plist pr.pmid
      rw [← hupd] at hc ⊢
      rw [ih (updateFirstIcd resolve plist pr.pmid) hndr]
      rw [hupd, List.filter_cons]
      have hfpr : (!((plist.map IcdRecord.pmid).contains pr.pmid)) = false := by
        rw [hupd] at hc
        rw [hc]
        rfl
      rw [hfpr]
      simp
    · have hc : (plist.map IcdRecord.pmid).contains pr.pmid = false := by
        rw [List.contains_eq_any_beq]
        rw [List.any_eq_false]
        intro x hx
        simp only [beq_iff_eq]
        intro hxe
        exact hmem (hxe ▸ hx)
      have hstep : correctStep resolve (plist, plist.map IcdRecord.pmid) pr =
          (plist ++ [newIcdRecord resolve pr],
            plist.map IcdRecord.pmid ++ [pr.pmid]) := by
        unfold correctStep
        rw [if_neg (fun h => absurd (hc.symm.trans h) (by decide))]
      have hmap : (plist ++ [newIcdRecord resolve pr]).map IcdRecord.pmid =
          plist.map IcdRecord.pmid ++ [pr.pmid] := by
        simp [newIcdRecord]
      rw [List.foldl_cons, hstep, ← hmap, ih (plist ++ [newIcdRecord resolve pr]) hndr]
      have hfeq : rest.filter (fun p =>
          !(((plist ++ [newIcdRecord resolve pr]).map IcdRecord.pmid).contains
            p.pmid)) =
          rest.filter (fun p =>
            !((plist.map IcdRecord.pmid).contains p.pmid)) := by
        apply List.filter_congr
        intro x hx
        have hxne : x.pmid ≠ pr.pmid := by
          intro hxe
          exact hprn (hxe ▸ List.mem_map_of_mem PredRecord.pmid hx)
        rw [hmap]
        congr 1
        rw [List.contains_eq_any_beq, List.contains_eq_any_beq,
          List.any_append]
        have h1 : [pr.pmid].any (x.pmid == ·) = false := by
          simp [hxne]
        rw [h1, Bool.or_false]
      rw [hfeq, hmap, List.filter_cons]
      have hfpr : (!((plist.map IcdRecord.pmid).contains pr.pmid)) = true := by
        rw [hc]
        rfl
      rw [hfpr, if_pos rfl]
      simp

/-- Claim C8: a merge pass over a pred file and an existing store, each
with distinct pmids, yields a store with no duplicate pmids: already
present pmids are updated in place (keeping the store order, with only
code-None entries re-resolved), new pmids are appended once at the end. -/
theorem C8_merge_no_duplicates (resolve : String → Option IcdEntry)
    (pred_list : List PredRecord) (processed : List IcdRecord)
    (hpred : (pred_list.map PredRecord.pmid).Nodup)
    (hproc : (processed.map IcdRecord.pmid).Nodup) :
    ((correct_pred_icd_11_none resolve pred_list processed).map
        IcdRecord.pmid).Nodup ∧
      (correct_pred_icd_11_none resolve pred_list processed).map
          IcdRecord.pmid =
        processed.map IcdRecord.pmid ++
          (pred_list.filter
            (fun p => !((processed.map IcdRecord.pmid).contains p.pmid))).map
              PredRecord.pmid ∧
      ∀ e : StdEntry, e.code.isSome → reresolveEntry resolve e = e := by
  have hmain : (correct_pred_icd_11_none resolve pred_list processed).map
      IcdRecord.pmid =
    processed.map IcdRecord.pmid ++
      (pred_list.filter
        (fun p => !((processed.map IcdRecord.pmid).contains p.pmid))).map
          PredRecord.pmid := correct_fold_spec resolve pred_list processed hpred
  refine ⟨?_, hmain, ?_⟩
  · rw [hmain, List.nodup_append]
    refine ⟨hproc, ?_, ?_⟩
    · have hsub : ((pred_list.filter
          (fun p => !((processed.map IcdRecord.pmid).contains p.pmid))).map
            PredRecord.pmid).Sublist (pred_list.map PredRecord.pmid) :=
        (List.filter_sublist pred_list).map PredRecord.pmid
      exact hsub.nodup hpred
    · intro p hp hq
      obtain ⟨x, hx, hxe⟩ := List.mem_map.mp hq
      have := (List.mem_filter.mp hx).2
      rw [hxe] at this
      rw [Bool.not_eq_eq_eq_not, Bool.not_true] at this
      have hcontains : (processed.map IcdRecord.pmid).contains p = true :=
        List.elem_iff.mpr hp
      rw [hcontains] at this
      exact absurd this (by decide)
  · intro e he
    rw [reresolveEntry]
    have : ¬ e.code = none := by
      intro h0
      rw [h0] at he
      exact Bool.false_ne_true he
    rw [if_neg this]

/-- Claim C8 witness: the merge theorem applied to a concrete pred list
(one already-present pmid with an unresolved entry, one new pmid) and a
one-record store. -/
theorem C8_merge_no_duplicates_witness :
    ((correct_pred_icd_11_none
          (fun t => if t = "flu" then some ⟨"1E32", "Influenza", "Ch01"⟩
            else none)
          [⟨1, ["flu"]⟩, ⟨2, ["x"]⟩]
          [⟨1, ["flu"], some [⟨"flu", none, none, none⟩]⟩]).map
        IcdRecord.pmid).Nodup ∧
      (correct_pred_icd_11_none
          (fun t => if t = "flu" then some ⟨"1E32", "Influenza", "Ch01"⟩
            else none)
          [⟨1, ["flu"]⟩, ⟨2, ["x"]⟩]
          [⟨1, ["flu"], some [⟨"flu", none, none, none⟩]⟩]).map
        IcdRecord.pmid = [1, 2] ∧
      reresolveEntry
          (fun t => if t = "flu" then some ⟨"1E32", "Influenza", "Ch01"⟩
            else none)
          ⟨"cold", some "CA00", some "Common cold", some "Ch12"⟩ =
        ⟨"cold", some "CA00", some "Common cold", some "Ch12"⟩ := by
  have h := C8_merge_no_duplicates
    (fun t => if t = "flu" then some ⟨"1E32", "Influenza", "Ch01"⟩ else none)
    [⟨1, ["flu"]⟩, ⟨2, ["x"]⟩]
    [⟨1, ["flu"], some [⟨"flu", none, none, none⟩]⟩]
    (by decide) (by decide)
  exact ⟨h.1, h.2.1.trans (by decide),
    h.2.2 ⟨"cold", some "CA00", some "Common cold", some "Ch12"⟩ rfl⟩

end OpenDxBench
